import Mathlib

/-!
Verification development for the GitHub-user crawling and enrichment bot.

The Python source (app/github.py, app/main.py, app/gpt_location.py,
app/models.py) is shallowly embedded below: HTTP traffic and other
environment effects are passed in explicitly (as lists or functions giving
the outcome of each outbound request), database tables become lists of
rows, and the stateful loops become fueled recursive functions.  Each
definition carries a comment naming the source lines it embeds.
-/

set_option autoImplicit false

namespace GitBot

/-! ## app/github.py, safe_get (lines 95-136)

One loop iteration of safe_get performs one request.  The outcome of the
request made on attempt number i is supplied by an environment function
env : Nat -> ReqOutcome.  The TokenManager side effects of the loop
(mark_rate_limited, the 60s sleep, the exponential-backoff sleeps) do not
feed back into the control flow of safe_get — the headers are non-empty
whenever the TokenManager constructed successfully (it raises at
construction when no tokens are configured) — so the loop's control state
is just the attempt counter.
-/

/-- Outcome of one requests.get call inside safe_get: either a
connection-level exception, or a response with a status code and an
optional X-RateLimit-Reset header value. -/
inductive ReqOutcome where
  | exn
  | resp (status : Nat) (rateLimitReset : Option Nat)
deriving DecidableEq

/-- Result of safe_get: a returned response (any status that is not a
rate-limit signal is returned to the caller, 200 or not), the terminal
re-raise of a connection exception on the last attempt, or the final
"Failed to get url after max_retries attempts" exception when the
for-loop runs out of attempts. -/
inductive SafeGetResult where
  | ok (status : Nat)
  | raised
  | exhausted
deriving DecidableEq

/-- Embeds the body of the for-loop of safe_get.  The first argument is
the attempt counter, the second the number of loop iterations remaining
(max_retries - attempt).  A 403/429 response executes continue whether or
not a reset header is present (mark_rate_limited and the 60s sleep are
environment effects); a connection exception executes continue unless
this was the last attempt (attempt < max_retries - 1, i.e. at least one
iteration remains after this one). -/
def safeGetAux (env : Nat → ReqOutcome) : Nat → Nat → SafeGetResult
  | _, 0 => SafeGetResult.exhausted
  | attempt, remaining + 1 =>
    match env attempt with
    | ReqOutcome.exn =>
      if remaining = 0 then SafeGetResult.raised
      else safeGetAux env (attempt + 1) remaining
    | ReqOutcome.resp status _reset =>
      if status = 403 ∨ status = 429 then
        safeGetAux env (attempt + 1) remaining
      else
        SafeGetResult.ok status

/-- Embeds safe_get(url, max_retries): run the attempt loop from attempt
0 with max_retries iterations available (source default max_retries = 3). -/
def safe_get (env : Nat → ReqOutcome) (maxRetries : Nat) : SafeGetResult :=
  safeGetAux env 0 maxRetries

/-- True exactly for the responses the source treats as rate-limit
signals carrying a reset timestamp: status 403 or 429 with an
X-RateLimit-Reset header present. -/
def isRateLimitWithReset : ReqOutcome → Bool
  | ReqOutcome.resp status (some _) => status = 403 || status = 429
  | _ => false

theorem safeGetAux_rateLimit_step (env : Nat → ReqOutcome) (attempt r : Nat)
    (h : isRateLimitWithReset (env attempt) = true) :
    safeGetAux env attempt (r + 1) = safeGetAux env (attempt + 1) r := by
  unfold isRateLimitWithReset at h
  unfold safeGetAux
  cases henv : env attempt with
  | exn => rw [henv] at h; simp at h
  | resp status reset =>
    rw [henv] at h
    cases reset with
    | none => simp at h
    | some t =>
      simp only [Bool.or_eq_true, decide_eq_true_eq] at h
      simp [h]
      rw [safeGetAux.eq_def]

/-- C1 (counterexample): a call whose every response is an HTTP 403
carrying a rate-limit reset timestamp fails with attempt exhaustion after
the default 3 attempts, contradicting the claim that such rate-limit
retries never consume the retry-attempt budget. -/
theorem c1_counterexample :
    safe_get (fun _ => ReqOutcome.resp 403 (some 1700000000)) 3
      = SafeGetResult.exhausted := by
  rfl

/-- C1 (amended): rate-limit responses consume retry-attempt slots just
like connection-level failures: each 403/429 response carrying a reset
timestamp reports the reset and retries, but the retry occupies one slot
of the attempt budget, so maxRetries (default 3) consecutive rate-limit
responses cause the call to fail with attempt exhaustion. -/
theorem c1_rate_limit_retries_consume_budget (env : Nat → ReqOutcome) (maxRetries : Nat)
    (h : ∀ i, i < maxRetries → isRateLimitWithReset (env i) = true) :
    safe_get env maxRetries = SafeGetResult.exhausted := by
  unfold safe_get
  suffices hgen : ∀ r attempt, (∀ i, i < attempt + r → isRateLimitWithReset (env i) = true) →
      safeGetAux env attempt r = SafeGetResult.exhausted by
    have := hgen maxRetries 0 (by simpa using h)
    simpa using this
  intro r
  induction r with
  | zero => intro attempt _; rfl
  | succ n ih =>
    intro attempt hall
    rw [safeGetAux_rateLimit_step env attempt n (hall attempt (by omega))]
    exact ih (attempt + 1) (fun i hi => hall i (by omega))

theorem c1_witness :
    (∀ i, i < 3 → isRateLimitWithReset ((fun _ => ReqOutcome.resp 429 (some 5)) i) = true)
      ∧ safe_get (fun _ => ReqOutcome.resp 429 (some 5)) 3 = SafeGetResult.exhausted :=
  ⟨fun _ _ => rfl,
   c1_rate_limit_retries_consume_budget (fun _ => ReqOutcome.resp 429 (some 5)) 3
     (fun _ _ => rfl)⟩

/-! ## app/github.py, TokenManager (lines 11-91)

The pool's state is the number of configured tokens (the constructor
raises when it is zero, so 0 < numTokens in any constructed pool), the
current token index, and the rate_limited_tokens dict mapping a token
index to its reset time, embedded as an association list.  Python dict
semantics give the key-list no duplicates; dict.get(i, 0) becomes
lookupReset.  time.sleep(w) becomes advancing the explicit current-time
argument by w. -/

structure TokenState where
  numTokens : Nat
  currentIndex : Nat
  rateLimited : List (Nat × Nat)
deriving DecidableEq

/-- Embeds self.rate_limited_tokens.get(i, 0). -/
def lookupReset (rl : List (Nat × Nat)) (i : Nat) : Nat :=
  match rl.lookup i with
  | some r => r
  | none => 0

/-- Embeds the collection of available_indices in
_switch_to_available_token: indices i in range(numTokens) whose reset
time (default 0) has already elapsed. -/
def availableIndices (n : Nat) (rl : List (Nat × Nat)) (now : Nat) : List Nat :=
  (List.range n).filter (fun i => decide (lookupReset rl i ≤ now))

/-- Embeds the deletions performed inside the scan loop of
_switch_to_available_token: an entry for an index in range whose positive
reset time has elapsed is removed from rate_limited_tokens. -/
def clearElapsed (n : Nat) (rl : List (Nat × Nat)) (now : Nat) : List (Nat × Nat) :=
  rl.filter (fun p => !(decide (p.1 < n) && decide (0 < p.2) && decide (p.2 ≤ now)))

/-- Minimum of a list of naturals, embedding Python's min() over
rate_limited_tokens.values(); none on the empty list (where Python
raises ValueError). -/
def listMin : List Nat → Option Nat
  | [] => none
  | x :: xs =>
    match listMin xs with
    | none => some x
    | some m => some (if x ≤ m then x else m)

/-- Embeds the selection scan of _switch_to_available_token: the first
index of the round-robin sequence (current + i + 1) % n, i in range(n),
that is available; the source then falls back to available_indices[0]
(dead code when available_indices is non-empty, since the scan covers
every residue). -/
def selectNext (cur n : Nat) (avail : List Nat) : Nat :=
  match (List.range n).find? (fun i => avail.contains ((cur + i + 1) % n)) with
  | some i => (cur + i + 1) % n
  | none => avail.headD 0

/-- Embeds _switch_to_available_token.  The fuel argument bounds the
recursion depth of the Python method's self-call; none models the
recursion not bottoming out within the given fuel (or Python's min()
raising on an empty dict).  When no token is available, the method sleeps
max(earliest - now, 0) + 1 seconds — embedded by advancing now — and
recurses on the unchanged pool state. -/
def switchToAvailableToken (st : TokenState) : Nat → Nat → Option TokenState
  | _, 0 => none
  | now, fuel + 1 =>
    if availableIndices st.numTokens st.rateLimited now = [] then
      match listMin (st.rateLimited.map Prod.snd) with
      | none => none
      | some earliest =>
        switchToAvailableToken st (now + (earliest - now) + 1) fuel
    else
      some { st with
        rateLimited := clearElapsed st.numTokens st.rateLimited now,
        currentIndex := selectNext st.currentIndex st.numTokens
          (availableIndices st.numTokens st.rateLimited now) }

theorem switch_unfold (st : TokenState) (now fuel : Nat) :
    switchToAvailableToken st now (fuel + 1)
      = if availableIndices st.numTokens st.rateLimited now = [] then
          match listMin (st.rateLimited.map Prod.snd) with
          | none => none
          | some earliest =>
            switchToAvailableToken st (now + (earliest - now) + 1) fuel
        else
          some { st with
            rateLimited := clearElapsed st.numTokens st.rateLimited now,
            currentIndex := selectNext st.currentIndex st.numTokens
              (availableIndices st.numTokens st.rateLimited now) } := by
  rfl

theorem listMin_mem {l : List Nat} : ∀ {m : Nat}, listMin l = some m → m ∈ l := by
  induction l with
  | nil => intro m h; simp [listMin] at h
  | cons x xs ih =>
    intro m h
    unfold listMin at h
    cases hxs : listMin xs with
    | none =>
      rw [hxs] at h
      simp only [Option.some.injEq] at h
      subst h
      exact List.mem_cons_self x xs
    | some m2 =>
      rw [hxs] at h
      by_cases hle : x ≤ m2
      · simp only [if_pos hle, Option.some.injEq] at h
        subst h
        exact List.mem_cons_self x xs
      · simp only [if_neg hle, Option.some.injEq] at h
        subst h
        exact List.mem_cons_of_mem x (ih hxs)

theorem lookup_of_mem_nodup {l : List (Nat × Nat)} {a b : Nat}
    (hnd : (l.map Prod.fst).Nodup) (hmem : (a, b) ∈ l) : l.lookup a = some b := by
  induction l with
  | nil => simp at hmem
  | cons p ps ih =>
    simp only [List.map_cons, List.nodup_cons] at hnd
    rcases List.mem_cons.mp hmem with heq | htail
    · rw [← heq]
      simp [List.lookup]
    · have hne : a ≠ p.1 := by
        intro hcontr
        exact hnd.1 (hcontr ▸ (List.mem_map.mpr ⟨(a, b), htail, rfl⟩))
      have hb : (a == p.1) = false := by
        simp [hne]
      simp only [List.lookup, hb]
      exact ih hnd.2 htail

theorem availableIndices_empty_gt {n : Nat} {rl : List (Nat × Nat)} {now : Nat}
    (h : availableIndices n rl now = []) :
    ∀ i, i < n → now < lookupReset rl i := by
  intro i hi
  by_contra hle
  push_neg at hle
  have hmem : i ∈ availableIndices n rl now :=
    List.mem_filter.mpr ⟨List.mem_range.mpr hi, by simpa using hle⟩
  rw [h] at hmem
  simp at hmem

/-- C5: when every credential is rate-limited, the pool's switch
operation waits until the earliest upcoming reset and then retries; the
retry always finds an available credential, so the wait-and-retry
terminates with recursion depth at most 2 (fuel 2 suffices) for every
pool state whose rate-limit table keys are valid token indices of a
non-empty token list. -/
theorem c5_switch_terminates (st : TokenState) (now : Nat)
    (hn : 0 < st.numTokens)
    (hkeys : ∀ p ∈ st.rateLimited, p.1 < st.numTokens)
    (hnd : (st.rateLimited.map Prod.fst).Nodup) :
    ∃ st2, switchToAvailableToken st now 2 = some st2 := by
  by_cases hav : availableIndices st.numTokens st.rateLimited now = []
  · have hgt := availableIndices_empty_gt hav
    have h0 : now < lookupReset st.rateLimited 0 := hgt 0 hn
    have hrl_ne : st.rateLimited ≠ [] := by
      intro hcontr
      rw [hcontr] at h0
      simp [lookupReset, List.lookup] at h0
    obtain ⟨earliest, hmin⟩ : ∃ m, listMin (st.rateLimited.map Prod.snd) = some m := by
      cases hrl : st.rateLimited with
      | nil => exact absurd hrl hrl_ne
      | cons p ps =>
        simp only [List.map_cons]
        unfold listMin
        cases hl2 : listMin (List.map Prod.snd ps) <;> exact ⟨_, rfl⟩
    obtain ⟨p, hpmem, hpval⟩ : ∃ p ∈ st.rateLimited, p.2 = earliest := by
      have := listMin_mem hmin
      rcases List.mem_map.mp this with ⟨p, hp, hpe⟩
      exact ⟨p, hp, hpe⟩
    have hmem2 : (p.1, earliest) ∈ st.rateLimited := by
      rw [← hpval]
      simpa using hpmem
    have hlook : lookupReset st.rateLimited p.1 = earliest := by
      unfold lookupReset
      rw [lookup_of_mem_nodup hnd hmem2]
    have hp1 : p.1 < st.numTokens := hkeys p hpmem
    have havail2 : p.1 ∈ availableIndices st.numTokens st.rateLimited
        (now + (earliest - now) + 1) := by
      apply List.mem_filter.mpr
      refine ⟨List.mem_range.mpr hp1, ?_⟩
      show decide (lookupReset st.rateLimited p.1 ≤ now + (earliest - now) + 1) = true
      rw [hlook]
      simp only [decide_eq_true_eq]
      omega
    have hav2 : availableIndices st.numTokens st.rateLimited
        (now + (earliest - now) + 1) ≠ [] :=
      List.ne_nil_of_mem havail2
    rw [show (2 : Nat) = 1 + 1 from rfl, switch_unfold, if_pos hav, hmin]
    show ∃ st2, switchToAvailableToken st (now + (earliest - now) + 1) 1 = some st2
    rw [show (1 : Nat) = 0 + 1 from rfl, switch_unfold, if_neg hav2]
    exact ⟨_, rfl⟩
  · rw [show (2 : Nat) = 1 + 1 from rfl, switch_unfold, if_neg hav]
    exact ⟨_, rfl⟩

theorem c5_witness :
    (0 < (TokenState.mk 2 0 [(0, 50), (1, 60)]).numTokens)
      ∧ (∀ p ∈ (TokenState.mk 2 0 [(0, 50), (1, 60)]).rateLimited,
          p.1 < (TokenState.mk 2 0 [(0, 50), (1, 60)]).numTokens)
      ∧ ((TokenState.mk 2 0 [(0, 50), (1, 60)]).rateLimited.map Prod.fst).Nodup
      ∧ ∃ st2, switchToAvailableToken (TokenState.mk 2 0 [(0, 50), (1, 60)]) 10 2 = some st2 :=
  ⟨by decide, by decide, by decide,
   c5_switch_terminates (TokenState.mk 2 0 [(0, 50), (1, 60)]) 10
     (by decide) (by decide) (by decide)⟩

/-! ## app/github.py, get_active_github_users (lines 138-160)

The response body obtained from res.json() is either a JSON parse
failure (the except branch), a parsed value that is not a list, or a
list of entities.  The function never inspects the entities themselves,
so the entity type is a parameter. -/

/-- Parsed shape of the listing response body. -/
inductive ListingBody (α : Type) where
  | malformed
  | notList
  | entities (users : List α)
deriving DecidableEq

/-- Embeds get_active_github_users(since): parse failure or a non-list
body or an empty list returns (empty, None); otherwise the page is
returned with next_since = since + 100, computed unconditionally. -/
def get_active_github_users {α : Type} (since : Nat) (body : ListingBody α) :
    List α × Option Nat :=
  match body with
  | ListingBody.malformed => ([], none)
  | ListingBody.notList => ([], none)
  | ListingBody.entities users =>
    if users.length = 0 then ([], none)
    else (users, some (since + 100))

/-- C6: the paginator returns (empty, no next cursor) exactly when the
response body is unparseable, not a list, or an empty list; on any
non-empty list it returns the entities with nextCursor = cursor + 100,
regardless of the page's contents. -/
theorem c6_paginator_end_of_stream {α : Type} (since : Nat) (body : ListingBody α) :
    (get_active_github_users since body = ([], none)
       ↔ body = ListingBody.malformed ∨ body = ListingBody.notList
           ∨ body = ListingBody.entities [])
      ∧ ∀ users : List α, users ≠ [] →
          get_active_github_users since (ListingBody.entities users)
            = (users, some (since + 100)) := by
  constructor
  · constructor
    · intro h
      cases body with
      | malformed => exact Or.inl rfl
      | notList => exact Or.inr (Or.inl rfl)
      | entities users =>
        refine Or.inr (Or.inr ?_)
        simp only [get_active_github_users] at h
        by_cases hlen : users.length = 0
        · rw [List.length_eq_zero.mp hlen]
        · rw [if_neg hlen] at h
          have husers : users = [] := congrArg Prod.fst h
          exact absurd (by simp [husers] : users.length = 0) hlen
    · intro h
      rcases h with h | h | h <;> rw [h] <;> rfl
  · intro users hne
    have hlen : ¬(users.length = 0) := fun h0 => hne (List.length_eq_zero.mp h0)
    simp only [get_active_github_users]
    rw [if_neg hlen]

theorem c6_witness :
    ([1, 2] ≠ ([] : List Nat))
      ∧ get_active_github_users 0 (ListingBody.entities [1, 2]) = ([1, 2], some 100) :=
  ⟨by decide, (c6_paginator_end_of_stream 0 (ListingBody.entities [1, 2])).2 [1, 2] (by decide)⟩

/-! ## app/main.py, the fetch loop of run (lines 157-204)

One iteration of the while-loop fetches one listing page, processes the
batch (per-entity processing does not influence the loop's control flow
or the cursor), advances since to next_since, checkpoints it, and stops
on an empty page, an absent next_since, or a short page.  The
error-payload check of lines 169-173 can never fire, because
get_active_github_users only ever returns a list.  The body
returned for the k-th fetch is supplied by env; the fuel argument bounds
the number of iterations (the source loop is while True).  The result is
(number of pages fetched, final checkpointed since value); none models
running out of fuel. -/
def runLoop {α : Type} (env : Nat → ListingBody α) : Nat → Nat → Nat → Option (Nat × Nat)
  | 0, _, _ => none
  | fuel + 1, k, since =>
    let r := get_active_github_users since (env k)
    if r.1.isEmpty then some (k + 1, since)
    else
      match r.2 with
      | none => some (k + 1, since)
      | some next =>
        if r.1.length < 100 then some (k + 1, next)
        else runLoop env fuel (k + 1) next

/-- Listing scenario of the claim: the first page carries 100 entities,
every later page 37. -/
def scenarioEnv : Nat → ListingBody Unit
  | 0 => ListingBody.entities (List.replicate 100 ())
  | _ + 1 => ListingBody.entities (List.replicate 37 ())

/-- C2 (counterexample): with a starting cursor of 0 and pages of 100
then 37 entities, the run fetches exactly 2 pages but the final
checkpointed cursor is 200, not the starting cursor plus 100. -/
theorem c2_counterexample :
    runLoop scenarioEnv 5 0 0 = some (2, 200) ∧ (200 : Nat) ≠ 0 + 100 := by
  constructor
  · rfl
  · decide

/-- C2 (amended): if the listing returns a page of exactly 100 entities
followed by a page of 37, the run fetches exactly 2 pages and stops after
the second because 37 < 100, but the short second page still advances and
checkpoints the cursor before the loop stops, so the final checkpointed
cursor equals the starting cursor plus 200 (two page sizes), not plus
100. -/
theorem c2_two_pages_final_cursor (start extraFuel : Nat) :
    runLoop scenarioEnv (extraFuel + 2) 0 start = some (2, start + 200) := by
  show runLoop scenarioEnv (extraFuel + 2) 0 start = some (2, start + 200)
  have h : start + 100 + 100 = start + 200 := by omega
  rw [← h]
  rfl

/-! ## app/models.py User (lines 5-18) and app/main.py process_user (lines 55-152)

A users-table row.  Optional string fields model nullable columns; the
only uniqueness constraint in the schema is uq_user_git_username on
git_username (email carries no unique constraint).  Python string
truthiness (None and the empty string are falsy) is falsyS. -/

structure UserRow where
  name : Option String
  location : String
  email : Option String
  git_username : Option String
  country : Option String
deriving DecidableEq

/-- Python truthiness of an optional string: None and the empty string
are falsy. -/
def falsyS : Option String → Bool
  | none => true
  | some s => s.isEmpty

/-- Embeds the pre-insert existence query of process_user (lines
106-109): any row whose git_username equals the handle or whose email
equals the resolved email. -/
def existsMatch (db : List UserRow) (username : String) (email : String) : Bool :=
  db.any (fun r => r.git_username == some username || r.email == some email)

/-- True when the table already holds a row with the given non-null
git_username. -/
def hasHandle (db : List UserRow) (u : String) : Bool :=
  db.any (fun r => r.git_username == some u)

/-- Embeds the uq_user_git_username unique constraint of models.py: an
insert raises IntegrityError exactly when the new row carries a non-null
git_username already present in the table.  The schema has no uniqueness
constraint on email. -/
def violatesUnique (db : List UserRow) (row : UserRow) : Bool :=
  match row.git_username with
  | none => false
  | some u => hasHandle db u

/-- Embeds the commit/rollback of the insert attempt (lines 115-145):
on constraint violation the transaction is rolled back and the table is
unchanged; otherwise the row is appended. -/
def insertUser (db : List UserRow) (row : UserRow) : Bool × List UserRow :=
  if violatesUnique db row then (false, db) else (true, db ++ [row])

/-- Embeds lines 81-99 of process_user: with an empty profile location
the timezone-from-commits value is used and country_code stays None;
with a non-empty location the country code is resolved and timezone
stays None. -/
def resolveLocationTag (location : String) (tz cc : Option String) :
    Option String × Option String :=
  if location.isEmpty then (tz, none) else (none, cc)

/-- Embeds the Python expression (timezone if timezone else
country_code) of line 117. -/
def pySelect (tz cc : Option String) : Option String :=
  if falsyS tz then cc else tz

/-- Result of fetching the user detail record (lines 61-66): a falsy
body or an error payload carrying a message key counts as a fetch
failure; otherwise the optional profile fields. -/
inductive DetailsResult where
  | fetchFailed
  | ok (location : Option String) (email : Option String) (name : Option String)

/-- The five exits of process_user. -/
inductive PUOutcome where
  | fetchError
  | skippedNoEmail
  | alreadyExists
  | savedNew
  | duplicateRace
deriving DecidableEq

/-- Statistic increments process_user performs at each exit (stats is
shared state mutated by the closure). -/
structure StatsDelta where
  errors : Nat
  skipped_no_email : Nat
  saved : Nat
deriving DecidableEq

def statsDelta : PUOutcome → StatsDelta
  | PUOutcome.fetchError => ⟨1, 0, 0⟩
  | PUOutcome.skippedNoEmail => ⟨0, 1, 0⟩
  | PUOutcome.alreadyExists => ⟨0, 0, 0⟩
  | PUOutcome.savedNew => ⟨0, 0, 1⟩
  | PUOutcome.duplicateRace => ⟨0, 0, 0⟩

/-- Embeds process_user (lines 55-152) as a function of the entity's
handle, the outcomes of its HTTP lookups (detail record, commit-derived
name/email fallback, commit-derived timezone, resolved country code) and
the users table it sees, returning the exit taken and the updated table.

Line-by-line: location is details.get("location", "") or ""; name is
details.get("name") or username; when the profile email is falsy both
name and email are overwritten by get_email_from_commits (line 77); a
falsy final email exits as skipped_no_email (lines 101-104); a pre-check
hit exits as already-exists (lines 106-112); otherwise the row is
inserted with country = (timezone if timezone else country_code), and an
IntegrityError rolls back and exits as a duplicate (lines 114-145). -/
def process_user (username : String) (details : DetailsResult)
    (commitName commitEmail : Option String) (tz cc : Option String)
    (db : List UserRow) : PUOutcome × List UserRow :=
  match details with
  | DetailsResult.fetchFailed => (PUOutcome.fetchError, db)
  | DetailsResult.ok loc em nm =>
    let location : String := match loc with | some s => s | none => ""
    let name0 : Option String := if falsyS nm then some username else nm
    let nameEmail := if falsyS em then (commitName, commitEmail) else (name0, em)
    let tzcc := resolveLocationTag location tz cc
    match nameEmail.2 with
    | none => (PUOutcome.skippedNoEmail, db)
    | some e =>
      if e.isEmpty then (PUOutcome.skippedNoEmail, db)
      else if existsMatch db username e then (PUOutcome.alreadyExists, db)
      else
        let row : UserRow :=
          ⟨nameEmail.1, location, some e, some username, pySelect tzcc.1 tzcc.2⟩
        let ins := insertUser db row
        if ins.1 then (PUOutcome.savedNew, ins.2) else (PUOutcome.duplicateRace, db)

/-- Number of rows carrying the given handle. -/
def countHandle (db : List UserRow) (u : String) : Nat :=
  (db.filter (fun r => r.git_username == some u)).length

/-- Number of rows carrying the given email. -/
def countEmail (db : List UserRow) (e : String) : Nat :=
  (db.filter (fun r => r.email == some e)).length

/-- Embeds the dedup-and-insert tail of process_user for one entity that
reached the insert stage with handle u and email e, with the pre-check
reading snapshot dbCheck and the insert applying to dbWrite.  Under the
concurrent fan-out of run (asyncio.gather over process_user tasks), two
entities' pre-checks can both read the same snapshot before either
insert commits, which is the interleaving the dedup claim must survive. -/
def dedupInsert (dbCheck dbWrite : List UserRow) (row : UserRow) (u e : String) :
    List UserRow :=
  if existsMatch dbCheck u e then dbWrite
  else (insertUser dbWrite row).2

theorem countHandle_append (db l : List UserRow) (u : String) :
    countHandle (db ++ l) u = countHandle db u + countHandle l u := by
  unfold countHandle
  rw [List.filter_append, List.length_append]

theorem hasHandle_false_of_count0 {db : List UserRow} {u : String}
    (h : countHandle db u = 0) : hasHandle db u = false := by
  unfold countHandle at h
  unfold hasHandle
  rw [List.length_eq_zero] at h
  rw [List.any_eq_false]
  intro r hr
  intro hcontr
  have : r ∈ db.filter (fun r => r.git_username == some u) :=
    List.mem_filter.mpr ⟨hr, hcontr⟩
  rw [h] at this
  simp at this

theorem hasHandle_of_mem {db : List UserRow} {r : UserRow} {u : String}
    (hr : r ∈ db) (hu : r.git_username = some u) : hasHandle db u = true := by
  unfold hasHandle
  rw [List.any_eq_true]
  exact ⟨r, hr, by rw [hu]; simp⟩

/-- C3 (counterexample): two entities with distinct handles but the same
resolved email, enriched concurrently, can both pass the pre-insert
existence check against the same database snapshot and both insert
successfully — the schema has no uniqueness constraint on email — so two
persisted rows with the same email result. -/
theorem c3_counterexample :
    countEmail
      (dedupInsert []
        (dedupInsert [] [] ⟨some "Alice", "", some "x@example.com", some "alice", none⟩
          "alice" "x@example.com")
        ⟨some "Bob", "", some "x@example.com", some "bob", none⟩
        "bob" "x@example.com")
      "x@example.com" = 2 ∧ ¬(2 ≤ 1) := by
  constructor
  · rfl
  · decide

/-- C3 (amended): for pairs of entities with the same handle the claim
holds even under the concurrent interleaving in which both pre-checks
read the same snapshot: the git_username uniqueness constraint makes the
second insert fail, so at most one row with that handle is ever
persisted.  For pairs with the same email but different handles only the
non-atomic pre-check guards, and concurrent inserts can persist two rows
with the same email (see the counterexample). -/
theorem insertUser_no_handle {db : List UserRow} {row : UserRow} {u : String}
    (hrow : row.git_username = some u) (h : countHandle db u = 0) :
    (insertUser db row).2 = db ++ [row] := by
  unfold insertUser violatesUnique
  rw [hrow]
  simp [hasHandle_false_of_count0 h]

theorem insertUser_with_handle {db : List UserRow} {row : UserRow} {u : String}
    (hrow : row.git_username = some u) (h : hasHandle db u = true) :
    (insertUser db row).2 = db := by
  unfold insertUser violatesUnique
  rw [hrow]
  simp [h]

theorem countHandle_singleton {row : UserRow} {u : String}
    (hrow : row.git_username = some u) : countHandle [row] u = 1 := by
  simp [countHandle, hrow]

theorem c3_same_handle_at_most_one (db0 : List UserRow) (rowA rowB : UserRow)
    (uA eA uB eB u : String)
    (hA : rowA.git_username = some u) (hB : rowB.git_username = some u)
    (h0 : countHandle db0 u = 0) :
    countHandle (dedupInsert db0 (dedupInsert db0 db0 rowA uA eA) rowB uB eB) u ≤ 1 := by
  unfold dedupInsert
  by_cases hcA : existsMatch db0 uA eA = true
  · rw [if_pos hcA]
    by_cases hcB : existsMatch db0 uB eB = true
    · rw [if_pos hcB]; omega
    · rw [if_neg hcB, insertUser_no_handle hB h0, countHandle_append, h0,
        countHandle_singleton hB]
  · rw [if_neg hcA, insertUser_no_handle hA h0]
    have hcount1 : countHandle (db0 ++ [rowA]) u = 1 := by
      rw [countHandle_append, h0, countHandle_singleton hA]
    by_cases hcB : existsMatch db0 uB eB = true
    · rw [if_pos hcB]; omega
    · rw [if_neg hcB,
        insertUser_with_handle hB
          (hasHandle_of_mem (List.mem_append_right db0 (List.mem_singleton_self rowA)) hA),
        hcount1]

theorem c3_witness :
    ((⟨some "A", "", some "a@x", some "bob", none⟩ : UserRow).git_username = some "bob")
      ∧ ((⟨some "B", "", some "b@x", some "bob", none⟩ : UserRow).git_username = some "bob")
      ∧ countHandle [] "bob" = 0
      ∧ countHandle
          (dedupInsert []
            (dedupInsert [] [] ⟨some "A", "", some "a@x", some "bob", none⟩ "bob" "a@x")
            ⟨some "B", "", some "b@x", some "bob", none⟩ "bob" "b@x") "bob" ≤ 1 :=
  ⟨rfl, rfl, rfl,
   c3_same_handle_at_most_one [] ⟨some "A", "", some "a@x", some "bob", none⟩
     ⟨some "B", "", some "b@x", some "bob", none⟩ "bob" "a@x" "bob" "b@x" "bob"
     rfl rfl rfl⟩

/-- True of strings shaped like a 2-letter country code. -/
def isTwoLetterCode (s : String) : Bool :=
  s.length == 2 && s.toList.all Char.isAlpha

/-- True of strings shaped like a signed HHMM timezone offset such as
+0300 or -0500 (the shape get_timezone_from_commits extracts). -/
def isTzOffsetTag (s : String) : Bool :=
  s.length == 5
    && (s.toList.headD ' ' == '+' || s.toList.headD ' ' == '-')
    && (s.toList.drop 1).all Char.isDigit

/-- C4: the timezone branch of process_user is taken exactly when the
profile location string is empty and the country-code branch exactly when
it is non-empty, so at most one of the two values is ever set, and the
stored country value (timezone if timezone else country_code) never
simultaneously matches the 2-letter-code shape and the signed-HHMM
shape. -/
theorem c4_location_tag_exclusive (location : String) (tz cc : Option String) :
    (location.isEmpty = true → resolveLocationTag location tz cc = (tz, none))
      ∧ (location.isEmpty = false → resolveLocationTag location tz cc = (none, cc))
      ∧ ¬((resolveLocationTag location tz cc).1.isSome = true
            ∧ (resolveLocationTag location tz cc).2.isSome = true)
      ∧ ∀ s : String,
          pySelect (resolveLocationTag location tz cc).1
              (resolveLocationTag location tz cc).2 = some s
            → ¬(isTwoLetterCode s = true ∧ isTzOffsetTag s = true) := by
  refine ⟨?_, ?_, ?_, ?_⟩
  · intro h
    unfold resolveLocationTag
    rw [if_pos h]
  · intro h
    unfold resolveLocationTag
    rw [if_neg (by rw [h]; exact Bool.false_ne_true)]
  · unfold resolveLocationTag
    by_cases h : location.isEmpty = true
    · rw [if_pos h]
      rintro ⟨-, h2⟩
      simp at h2
    · rw [if_neg h]
      rintro ⟨h1, -⟩
      simp at h1
  · intro s _ hboth
    rcases hboth with ⟨h2, h5⟩
    unfold isTwoLetterCode at h2
    unfold isTzOffsetTag at h5
    simp only [Bool.and_eq_true, beq_iff_eq] at h2 h5
    omega

theorem c4_witness :
    resolveLocationTag "" (some "+0300") (some "US") = (some "+0300", none)
      ∧ resolveLocationTag "Paris" (some "+0300") (some "FR") = (none, some "FR")
      ∧ ¬(isTwoLetterCode "+0300" = true ∧ isTzOffsetTag "+0300" = true) :=
  ⟨(c4_location_tag_exclusive "" (some "+0300") (some "US")).1 rfl,
   (c4_location_tag_exclusive "Paris" (some "+0300") (some "FR")).2.1 rfl,
   (c4_location_tag_exclusive "" (some "+0300") none).2.2.2 "+0300" rfl⟩

/-- C7: an entity whose profile email is falsy and whose commit-derived
fallback email is also falsy exits process_user as skipped_no_email: no
row is persisted (the table is returned unchanged), the skipped_no_email
statistic is incremented by exactly one and the error statistic is not
touched. -/
theorem c7_no_email_skipped (username : String) (loc em nm commitName commitEmail tz cc : Option String)
    (db : List UserRow) (hem : falsyS em = true) (hce : falsyS commitEmail = true) :
    process_user username (DetailsResult.ok loc em nm) commitName commitEmail tz cc db
        = (PUOutcome.skippedNoEmail, db)
      ∧ statsDelta PUOutcome.skippedNoEmail = ⟨0, 1, 0⟩ := by
  refine ⟨?_, rfl⟩
  cases commitEmail with
  | none =>
    simp [process_user, hem]
  | some e =>
    have he : e.isEmpty = true := by simpa [falsyS] using hce
    simp [process_user, hem, he]

theorem c7_witness :
    falsyS (some "") = true ∧ falsyS none = true
      ∧ process_user "alice" (DetailsResult.ok (some "Paris") (some "") none) none none
          none (some "FR") [] = (PUOutcome.skippedNoEmail, [])
      ∧ statsDelta PUOutcome.skippedNoEmail = ⟨0, 1, 0⟩ :=
  ⟨rfl, rfl,
   (c7_no_email_skipped "alice" (some "Paris") (some "") none none none none (some "FR")
      [] rfl rfl).1,
   (c7_no_email_skipped "alice" (some "Paris") (some "") none none none none (some "FR")
      [] rfl rfl).2⟩

/-! ## app/gpt_location.py, get_country_code (lines 349-391) and its
static gazetteer (lines 19-94)

The gazetteer sets are transcribed verbatim.  The keyword check is
Python substring containment on the lowercased location; the
province-name/code check tests each regex word (maximal run of word
characters) for set membership.  The external geocoding provider is
abstracted as a function from attempt number to its returned optional
country-code string. -/

def US_STATES : List String :=
  ["alborz", "ardabil", "bushehr",
   "chaharmahal and bakhtiari", "chahar mahal and bakhtiari",
   "east azerbaijan", "east azarbaijan",
   "fars", "gilan", "golestan",
   "hamadan", "hamedan", "hormozgan", "ilam",
   "isfahan", "esfahan", "kerman", "kermanshah", "khuzestan",
   "kohgiluyeh and boyer-ahmad", "kohgiluyeh and boyer ahmad",
   "kurdistan", "lorestan", "lurestan", "markazi", "mazandaran",
   "north khorasan", "northern khorasan",
   "qazvin", "qom",
   "razavi khorasan", "khorasan razavi",
   "semnan",
   "sistan and baluchestan", "sistan and baluchistan",
   "south khorasan", "southern khorasan",
   "tehran", "west azerbaijan", "west azarbaijan",
   "yazd", "zanjan"]

def US_STATE_CODES : List String :=
  ["alb", "ard", "bsh", "cnb", "chb", "eaz", "far", "gil", "gol", "ham",
   "hor", "ila", "isf", "esf", "ker", "krm", "khu", "kba", "kur", "lor",
   "mar", "maz", "nkh", "qaz", "qom", "rkh", "sem", "sba", "skh", "teh",
   "waz", "yaz", "zan"]

def US_KEYWORDS : List String :=
  ["iran", "ir", "i.r.", "i.r", "islamic republic of iran",
   "persia", "persian", "tehran", "iranian"]

/-- Whether the first character list is a prefix of the second. -/
def isPrefixChars : List Char → List Char → Bool
  | [], _ => true
  | _ :: _, [] => false
  | p :: ps, c :: cs => p == c && isPrefixChars ps cs

/-- Whether the first character list occurs as a contiguous substring of
the second. -/
def occursIn : List Char → List Char → Bool
  | pat, [] => pat.isEmpty
  | pat, c :: cs => isPrefixChars pat (c :: cs) || occursIn pat cs

/-- Python substring containment, the in operator on str. -/
def strContains (s pat : String) : Bool :=
  occursIn pat.toList s.toList

/-- Lowercases a string character-wise, embedding str.lower() on the
ASCII location strings the gazetteer targets. -/
def toLowerStr (s : String) : String :=
  String.mk (s.toList.map Char.toLower)

/-- A regex word character for the purposes of findall r-backslash-b
word extraction: letters, digits or underscore (ASCII). -/
def isWordChar (c : Char) : Bool :=
  c.isAlphanum || c == '_'

/-- Splits a character list into the maximal runs of word characters,
accumulating the current run in reverse. -/
def wordsAux : List Char → List Char → List String
  | [], cur => if cur.isEmpty then [] else [String.mk cur.reverse]
  | c :: cs, cur =>
    if isWordChar c then wordsAux cs (c :: cur)
    else if cur.isEmpty then wordsAux cs []
    else String.mk cur.reverse :: wordsAux cs []

/-- Embeds re.findall of word runs over a string. -/
def wordsOf (s : String) : List String :=
  wordsAux s.toList []

/-- Embeds the provider retry loop of get_country_code (for _ in
range(retries)): each attempt queries the geocoder; a truthy result is
uppercased and returned, a falsy one falls through to the next attempt;
None after the last attempt. -/
def geocodeLoop (provider : Nat → Option String) : Nat → Nat → Option String
  | 0, _ => none
  | n + 1, i =>
    match provider i with
    | some c => if c.isEmpty then geocodeLoop provider n (i + 1) else some c.toUpper
    | none => geocodeLoop provider n (i + 1)

/-- Embeds get_country_code(location_str, retries) under a configured
provider of the geocoding family (source default nominatim; the LLM
family branch runs the identical geocoding retry loop).  A falsy
location returns None; the Iran keyword check (substring, lowercased)
and the province-name/code check (regex words, lowercased) short-circuit
with the literal empty-string return of lines 362 and 367; otherwise the
provider loop runs. -/
def get_country_code (location : String) (provider : Nat → Option String)
    (retries : Nat) : Option String :=
  if location.isEmpty then none
  else
    if US_KEYWORDS.any (fun k => strContains (toLowerStr location) k) then some ""
    else if (wordsOf (toLowerStr location)).any
        (fun w => US_STATES.contains w || US_STATE_CODES.contains w) then some ""
    else geocodeLoop provider retries 0

/-- C8: on the gazetteer-matching location "Tehran, Iran" the fast path
short-circuits without consulting any provider (the result is the same
for every provider function), but the value returned is the empty
string, which is not a 2-letter country code — contradicting the
function's own docstring ("Returns uppercase country code (e.g., 'PK',
'US', 'NO') or None if not found") and the claimed contract. -/
theorem c8_gazetteer_returns_empty_string (provider : Nat → Option String) (retries : Nat) :
    get_country_code "Tehran, Iran" provider retries = some ""
      ∧ isTwoLetterCode "" = false := by
  exact ⟨rfl, rfl⟩

/-! ## app/main.py, run (lines 36-228) at the outcome level

The HTTP handler builds stats, loads the checkpoint, drives the fetch
loop and returns a JSON body whose status is "complete" on normal loop
exit (every fault inside the loop body is caught at lines 198-204 and
breaks out) and "error" when an exception escapes to the outer handler
(lines 213-226); there last_since_value is the current cursor if the
local variable since was ever bound, otherwise None.  load = none models
get_saved_since_value raising before since is bound; load = some s0 is
the loaded checkpoint.  The overall none models only loop-fuel
exhaustion of the embedding. -/

/-- Structured outcome of a run: the status tag plus the
last_since_value field it carries. -/
inductive RunOutcome where
  | complete (last_since : Nat)
  | error (last_since : Option Nat)
deriving DecidableEq

/-- The last_since_value carried by an outcome. -/
def RunOutcome.cursor : RunOutcome → Option Nat
  | RunOutcome.complete s => some s
  | RunOutcome.error c => c

/-- Embeds run: a checkpoint-load failure returns the error outcome with
a null cursor; a loaded checkpoint drives the fetch loop to completion
and returns the complete outcome carrying the final cursor. -/
def run {α : Type} (load : Option Nat) (env : Nat → ListingBody α) (fuel : Nat) :
    Option RunOutcome :=
  match load with
  | none => some (RunOutcome.error none)
  | some s0 => (runLoop env fuel 0 s0).map (fun r => RunOutcome.complete r.2)

/-- C9 (counterexample): when the checkpoint load fails before the
cursor variable is bound, the run returns the structured error outcome
whose last_since_value is null — so the error case does not always carry
a non-null resume cursor. -/
theorem c9_counterexample :
    run (α := Unit) none (fun _ => ListingBody.notList) 1
        = some (RunOutcome.error none)
      ∧ RunOutcome.cursor (RunOutcome.error none) = none := by
  exact ⟨rfl, rfl⟩

/-- C9 (amended): every run invocation returns a structured outcome
distinguishing complete from error; the complete outcome always carries
the non-null cursor a subsequent run resumes from, and the error outcome
carries it whenever the failure happened after the initial checkpoint
load bound the cursor (when the load itself fails the reported cursor is
null). -/
theorem c9_structured_outcome {α : Type} (load : Option Nat)
    (env : Nat → ListingBody α) (fuel : Nat) (out : RunOutcome)
    (h : run load env fuel = some out) :
    ((∃ s, out = RunOutcome.complete s) ∨ (∃ c, out = RunOutcome.error c))
      ∧ (∀ s0, load = some s0 → out.cursor.isSome = true) := by
  cases load with
  | none =>
    simp only [run, Option.some.injEq] at h
    subst h
    exact ⟨Or.inr ⟨none, rfl⟩, fun s0 hs => by cases hs⟩
  | some s0 =>
    simp only [run] at h
    cases hr : runLoop env fuel 0 s0 with
    | none => rw [hr] at h; simp at h
    | some r =>
      rw [hr] at h
      simp at h
      subst h
      exact ⟨Or.inl ⟨r.2, rfl⟩, fun _ _ => rfl⟩

theorem c9_witness :
    run (α := Unit) (some 5) (fun _ => ListingBody.malformed) 1
        = some (RunOutcome.complete 5)
      ∧ (((∃ s, RunOutcome.complete 5 = RunOutcome.complete s)
            ∨ (∃ c, RunOutcome.complete 5 = RunOutcome.error c))
          ∧ (∀ s0, (some 5 : Option Nat) = some s0
              → (RunOutcome.complete 5).cursor.isSome = true)) :=
  ⟨rfl,
   c9_structured_outcome (α := Unit) (some 5) (fun _ => ListingBody.malformed) 1
     (RunOutcome.complete 5) rfl⟩

/-! ## app/models.py FetchState (lines 21-26) and app/main.py
get_saved_since_value / save_since_value (lines 16-33)

The fetch_state table becomes a list of rows; the schema puts a unique
constraint on key, so any reachable table holds at most one row per key.
The query .filter(key == "github_since").first() becomes find?; saving
mutates the found row's since_value in place, else inserts a new row. -/

structure FetchStateRow where
  key : String
  since_value : Int
deriving DecidableEq

/-- Embeds get_saved_since_value: the first row keyed github_since, or 0
when none exists. -/
def get_saved_since_value (db : List FetchStateRow) : Int :=
  match db.find? (fun r => r.key == "github_since") with
  | some r => r.since_value
  | none => 0

/-- Updates the first github_since row's since_value in place. -/
def updateSinceFirst : List FetchStateRow → Int → List FetchStateRow
  | [], _ => []
  | r :: rs, v =>
    if r.key == "github_since" then ⟨r.key, v⟩ :: rs
    else r :: updateSinceFirst rs v

/-- Embeds save_since_value: mutate the existing github_since row if the
query finds one, else add a fresh row; commit persists the list. -/
def save_since_value (db : List FetchStateRow) (v : Int) : List FetchStateRow :=
  if (db.find? (fun r => r.key == "github_since")).isSome then updateSinceFirst db v
  else db ++ [⟨"github_since", v⟩]

/-- Number of rows keyed github_since. -/
def countSinceKey (db : List FetchStateRow) : Nat :=
  (db.filter (fun r => r.key == "github_since")).length

theorem countSince_cons_true {r : FetchStateRow} {rs : List FetchStateRow}
    (hk : (r.key == "github_since") = true) :
    countSinceKey (r :: rs) = countSinceKey rs + 1 := by
  unfold countSinceKey
  simp [List.filter_cons, hk]

theorem countSince_cons_false {r : FetchStateRow} {rs : List FetchStateRow}
    (hk : (r.key == "github_since") = false) :
    countSinceKey (r :: rs) = countSinceKey rs := by
  unfold countSinceKey
  simp [List.filter_cons, hk]

theorem save_cons_ne {r : FetchStateRow} {rs : List FetchStateRow} {v : Int}
    (hk : (r.key == "github_since") = false) :
    save_since_value (r :: rs) v = r :: save_since_value rs v := by
  unfold save_since_value
  have hfind : (r :: rs).find? (fun r => r.key == "github_since")
      = rs.find? (fun r => r.key == "github_since") := by
    simp [List.find?, hk]
  rw [hfind]
  by_cases hs : (rs.find? (fun r => r.key == "github_since")).isSome = true
  · rw [if_pos hs, if_pos hs]
    simp only [updateSinceFirst]
    rw [if_neg (by simp [hk])]
  · rw [if_neg hs, if_neg hs]
    rfl

/-- C10: saving a checkpoint value and reading it back returns that
value, and the store then holds exactly one github_since row — the save
updates the existing row in place rather than inserting a second one —
for every table state admissible under the schema's unique key
constraint (at most one github_since row). -/
theorem c10_checkpoint_roundtrip (db : List FetchStateRow) (v : Int)
    (hinv : countSinceKey db ≤ 1) :
    get_saved_since_value (save_since_value db v) = v
      ∧ countSinceKey (save_since_value db v) = 1 := by
  induction db with
  | nil =>
    constructor
    · rfl
    · rfl
  | cons r rs ih =>
    by_cases hk : (r.key == "github_since") = true
    · have hfind : (r :: rs).find? (fun r => r.key == "github_since") = some r := by
        simp [List.find?, hk]
      have hsave : save_since_value (r :: rs) v = ⟨r.key, v⟩ :: rs := by
        unfold save_since_value
        rw [hfind]
        rw [if_pos (show (some r).isSome = true from rfl)]
        simp only [updateSinceFirst]
        rw [if_pos hk]
      have hcount : countSinceKey rs = 0 := by
        rw [countSince_cons_true hk] at hinv
        omega
      rw [hsave]
      constructor
      · unfold get_saved_since_value
        rw [show ((⟨r.key, v⟩ : FetchStateRow) :: rs).find?
              (fun r => r.key == "github_since") = some ⟨r.key, v⟩ by simp [List.find?, hk]]
      · rw [countSince_cons_true
            (show ((⟨r.key, v⟩ : FetchStateRow).key == "github_since") = true from hk),
          hcount]
    · have hk' : (r.key == "github_since") = false := by
        cases h : (r.key == "github_since") with
        | true => exact absurd h hk
        | false => rfl
      have hinv' : countSinceKey rs ≤ 1 := by
        rw [countSince_cons_false hk'] at hinv
        exact hinv
      rw [save_cons_ne hk']
      rcases ih hinv' with ⟨ihget, ihcount⟩
      constructor
      · unfold get_saved_since_value
        rw [show (r :: save_since_value rs v).find? (fun r => r.key == "github_since")
              = (save_since_value rs v).find? (fun r => r.key == "github_since") by
            simp [List.find?, hk']]
        exact ihget
      · rw [countSince_cons_false hk']
        exact ihcount

theorem c10_witness :
    countSinceKey [⟨"other_key", 7⟩] ≤ 1
      ∧ get_saved_since_value (save_since_value [⟨"other_key", 7⟩] 42) = 42
      ∧ countSinceKey (save_since_value [⟨"other_key", 7⟩] 42) = 1 :=
  ⟨by decide,
   (c10_checkpoint_roundtrip [⟨"other_key", 7⟩] 42 (by decide)).1,
   (c10_checkpoint_roundtrip [⟨"other_key", 7⟩] 42 (by decide)).2⟩

end GitBot
